import Mathlib

/-!
Shallow embedding of the `loom-db` memory engine (`src/lib.rs`) and proofs
about the specification claims.  Floating-point scalars (`f32`) are modelled
as real numbers with exact arithmetic; machine integers (`u64` tick counters,
`usize` indices) as naturals, with the source's `as i32` cast on tick deltas
modelled explicitly.  Fallible code paths (`self.nodes[idx]` indexing, which
panics on an out-of-range index) are modelled in the `Except` monad.
-/

namespace Loom

/-! ## Small generic helpers (association lists, sorting, text) -/

/-- Lookup in an association list (models `HashMap::get`).  -/
def alookup {β : Type} : List (Nat × β) → Nat → Option β
  | [], _ => none
  | kv :: r, k => if kv.1 = k then some kv.2 else alookup r k

/-- Key membership in an association list (models `HashMap::contains_key`). -/
def akeyMem {β : Type} (m : List (Nat × β)) (k : Nat) : Bool :=
  m.any (fun kv => kv.1 = k)

/-- Insert-or-overwrite in an association list (models `HashMap::insert`). -/
def ainsert {β : Type} (m : List (Nat × β)) (k : Nat) (v : β) : List (Nat × β) :=
  if m.any (fun kv => kv.1 = k) then
    m.map (fun kv => if kv.1 = k then (k, v) else kv)
  else m ++ [(k, v)]

/-- String-keyed lookup, for the text index. -/
def slookup {β : Type} : List (String × β) → String → Option β
  | [], _ => none
  | kv :: r, k => if kv.1 = k then some kv.2 else slookup r k

/-- Models `self.index.entry(tok).or_insert(Vec::new()).push(idx)`:
append `i` to the posting list of key `k`, creating the entry if absent. -/
def indexAdd (ix : List (String × List Nat)) (k : String) (i : Nat) :
    List (String × List Nat) :=
  if ix.any (fun kv => kv.1 = k) then
    ix.map (fun kv => if kv.1 = k then (kv.1, kv.2 ++ [i]) else kv)
  else ix ++ [(k, [i])]

/-- Stable insertion step for `insSort`. -/
def insOrd {α : Type} (cmp : α → α → Ordering) (x : α) : List α → List α
  | [] => [x]
  | y :: ys =>
    match cmp x y with
    | .gt => y :: insOrd cmp x ys
    | _ => x :: y :: ys

/-- Stable comparator sort (models Rust's `sort_by` / `sort_unstable`;
the sources only rely on the resulting order, and ties are irrelevant
or broken identically here). -/
def insSort {α : Type} (cmp : α → α → Ordering) : List α → List α
  | [] => []
  | x :: xs => insOrd cmp x (insSort cmp xs)

/-- Remove adjacent duplicates (models `Vec::dedup` after sorting). -/
def dedupAdj : List Nat → List Nat
  | [] => []
  | [x] => [x]
  | x :: y :: r => if x = y then dedupAdj (y :: r) else x :: dedupAdj (y :: r)

/-- Total comparison on the reals, modelling `f32::partial_cmp` on
non-NaN values followed by `unwrap_or(Equal)` (the real-number model has
no NaN; the NaN behaviour of the two sort comparators is modelled
separately below). -/
noncomputable def rcmp (x y : ℝ) : Ordering :=
  if x < y then .lt else if y < x then .gt else .eq

/-- The `u64 as i32` wrap-around cast, as applied by the source to tick deltas. -/
def i32ofNat (x : Nat) : Int :=
  ((x % 2 ^ 32 : Nat) : Int) - (if x % 2 ^ 32 < 2 ^ 31 then 0 else 2 ^ 32)

/-- Character-level lowercasing (models `str::to_lowercase`). -/
def lowerStr (s : String) : String := ⟨s.data.map Char.toLower⟩

/-- Whitespace trim (models `str::trim`). -/
def trimStr (s : String) : String :=
  ⟨((s.data.dropWhile Char.isWhitespace).reverse.dropWhile Char.isWhitespace).reverse⟩

/-- Strip leading and trailing non-alphanumeric characters from a token
(models `str::trim_matches(|c| !c.is_alphanumeric())`). -/
def trimTok (cs : List Char) : List Char :=
  ((cs.dropWhile (fun c => !c.isAlphanum)).reverse.dropWhile (fun c => !c.isAlphanum)).reverse

/-- Whitespace splitting helper; `cur` is the current word, reversed. -/
def splitWsAux : List Char → List Char → List (List Char)
  | [], cur => if cur.isEmpty then [] else [cur.reverse]
  | c :: cs, cur =>
    if c.isWhitespace then
      if cur.isEmpty then splitWsAux cs [] else cur.reverse :: splitWsAux cs []
    else splitWsAux cs (c :: cur)

/-- Split on whitespace (models `str::split_whitespace`). -/
def splitWs (cs : List Char) : List (List Char) := splitWsAux cs []

/-- Bool-valued prefix test on character lists. -/
def isPrefixB : List Char → List Char → Bool
  | [], _ => true
  | _ :: _, [] => false
  | a :: as_, b :: bs => a = b && isPrefixB as_ bs

/-- Substring containment (models `str::contains` on string patterns). -/
def containsSubB : List Char → List Char → Bool
  | hay, q =>
    match hay with
    | [] => q.isEmpty
    | _ :: t => isPrefixB q hay || containsSubB t q

/-! ## Data model (`NodeMetadata`, `Node`, `Edge`, `LoomGraph`) -/

/-- Model of `NodeMetadata`: shared metadata of every node.  `Uuid` values are
modelled as naturals (the 128-bit value itself; its hyphenated text form is
abstracted away, parse failure of an identifier string is modelled by an
`Option` argument where relevant). -/
structure NodeMetadata where
  id : Nat
  activation : ℝ
  stability : ℝ
  last_tick : Nat

/-- Model of `NodeMetadata::new()` with the freshly drawn random id passed
explicitly (the model has no randomness). -/
def NodeMetadata.new (id : Nat) : NodeMetadata :=
  { id := id, activation := 1, stability := 1, last_tick := 0 }

/-- The three node variants.  Episode timestamps (`DateTime<Utc>`) are
modelled as naturals. -/
inductive Node where
  | episode (meta : NodeMetadata) (summary : String) (timestamp : Nat)
  | concept (meta : NodeMetadata) (name defn : String)
  | state (meta : NodeMetadata) (valence arousal : ℝ)

instance : Inhabited Node := ⟨.state (NodeMetadata.new 0) 0 0⟩

/-- Model of `Node::meta`. -/
def Node.meta : Node → NodeMetadata
  | .episode m _ _ => m
  | .concept m _ _ => m
  | .state m _ _ => m

/-- Replace a node's metadata (models writes through `Node::meta_mut`). -/
def Node.setMeta : Node → NodeMetadata → Node
  | .episode _ s t, m => .episode m s t
  | .concept _ n d, m => .concept m n d
  | .state _ v a, m => .state m v a

/-- Model of `Node::extract_text`. -/
def Node.extract_text : Node → String
  | .episode _ s _ => s
  | .concept _ n d => n ++ " " ++ d
  | .state _ _ _ => ""

/-- The five edge variants of `Edge`. -/
inductive Edge where
  | preceded (s t : Nat)
  | mentioned (s t : Nat)
  | evoked (s t : Nat)
  | associated (s t : Nat) (w : ℝ)
  | inhibited (s t : Nat) (w : ℝ)

/-- Whether an edge references the identifier `id` at either endpoint
(the match arm of `prune_low_stability`'s edge retention). -/
def Edge.touchesB : Edge → Nat → Bool
  | .preceded s t, id => s = id || t = id
  | .mentioned s t, id => s = id || t = id
  | .evoked s t, id => s = id || t = id
  | .associated s t _, id => s = id || t = id
  | .inhibited s t _, id => s = id || t = id

/-- Model of `LoomGraph`.  The two `HashMap`s are modelled as association lists
(their iteration order is only consumed by `search_native`, whose result
is order-independent after sorting and deduplication). -/
structure LoomGraph where
  nodes : List Node
  edges : List Edge
  current_tick : Nat
  decay_rate : ℝ
  index : List (String × List Nat)
  node_map : List (Nat × Nat)
  last_saved : Option Nat

/-- Model of `LoomGraph::new`. -/
def LoomGraph.new (decay_rate : ℝ) : LoomGraph :=
  { nodes := [], edges := [], current_tick := 0, decay_rate := decay_rate,
    index := [], node_map := [], last_saved := none }

/-! ## Core operations -/

/-- Model of `LoomGraph::add_node`: index the node's text, record it in
`node_map`, stamp `last_tick` with the current tick and push it. -/
def LoomGraph.add_node (g : LoomGraph) (node : Node) : LoomGraph :=
  let idx := g.nodes.length
  let id := node.meta.id
  let text := lowerStr node.extract_text
  let ix :=
    if text.data.isEmpty then g.index
    else
      (splitWs text.data).foldl
        (fun ix tok =>
          let clean : String := ⟨trimTok tok⟩
          if clean.data.isEmpty then ix else indexAdd ix clean idx)
        g.index
  let n := node.setMeta { node.meta with last_tick := g.current_tick }
  { g with index := ix, node_map := ainsert g.node_map id idx,
           nodes := g.nodes ++ [n] }

/-- Model of `LoomGraph::add_concept`; the fresh uuid is passed in.  (The source
returns the id's string form; the caller of the model already holds it.) -/
def LoomGraph.add_concept (g : LoomGraph) (id : Nat) (name defn : String) : LoomGraph :=
  g.add_node (.concept (NodeMetadata.new id) name defn)

/-- Model of `LoomGraph::add_episode`; the wall-clock timestamp is passed in. -/
def LoomGraph.add_episode (g : LoomGraph) (id : Nat) (summary : String) (now : Nat) : LoomGraph :=
  g.add_node (.episode (NodeMetadata.new id) summary now)

/-- Model of `LoomGraph::add_state`. -/
def LoomGraph.add_state (g : LoomGraph) (id : Nat) (valence arousal : ℝ) : LoomGraph :=
  g.add_node (.state (NodeMetadata.new id) valence arousal)

/-- Model of `LoomGraph::tick`. -/
def LoomGraph.tick (g : LoomGraph) : LoomGraph :=
  { g with current_tick := g.current_tick + 1 }

/-- Lazy decay of a single node at tick `T` with decay rate `d` (the body
of `get_activation`'s conditional): when the node is stale, multiply
activation by `d^(Δ/stability)` and stamp `last_tick`, where the delta is
first cast `u64 → i32 → f32` as in the source. -/
noncomputable def touchNode (T : Nat) (d : ℝ) (n : Node) : Node :=
  if n.meta.last_tick < T then
    let delta : Int := i32ofNat (T - n.meta.last_tick)
    let eff : ℝ := d ^ ((delta : ℝ) / n.meta.stability)
    n.setMeta { n.meta with activation := n.meta.activation * eff, last_tick := T }
  else n

/-- Model of `LoomGraph::get_activation`.  `self.nodes[node_idx]` panics when the
index is out of range; the panic is modelled as `Except.error`. -/
noncomputable def LoomGraph.get_activation (g : LoomGraph) (i : Nat) :
    Except String (ℝ × LoomGraph) :=
  match g.nodes.get? i with
  | none => .error "index out of bounds"
  | some n =>
    let n2 := touchNode g.current_tick g.decay_rate n
    .ok (n2.meta.activation, { g with nodes := g.nodes.set i n2 })

/-- The non-propagating part of `boost_node` (its behaviour when called
with `propagate = false`): lazy decay, asymptotic activation boost
(without clamping, as in the source), LTP stability gain with
constant `0.1`, and a `last_tick` stamp. -/
noncomputable def LoomGraph.selfBoost (g : LoomGraph) (i : Nat) (amount : ℝ) :
    Except String LoomGraph :=
  match g.get_activation i with
  | .error e => .error e
  | .ok (a, g1) =>
    match g1.nodes.get? i with
    | none => .error "index out of bounds"
    | some n =>
      let m := n.meta
      let real_boost := (1 - a) * amount
      let m2 := { m with
        activation := m.activation + real_boost,
        stability := m.stability + (50 - m.stability) * (amount * (1 / 10)),
        last_tick := g1.current_tick }
      .ok { g1 with nodes := g1.nodes.set i (n.setMeta m2) }

/-- One propagation step of `boost_node`'s edge loop: for an
`Edge::Associated(source, target, w)` with `source = node_id`, apply the
ripple to the target.  The recursive call in the source is
`boost_node(neighbor, ripple, false)`, which never recurses further, so it
is exactly `selfBoost`. -/
noncomputable def LoomGraph.rippleStep (node_id : Nat) (amount : ℝ)
    (acc : Except String LoomGraph) (e : Edge) : Except String LoomGraph :=
  match acc with
  | .error err => .error err
  | .ok h =>
    match e with
    | .associated source target w =>
      if source = node_id then
        match alookup h.node_map target with
        | some nidx =>
          let ripple := amount * w * (1 / 2)
          if 0 < ripple then h.selfBoost nidx ripple
          else if ripple < 0 then
            match h.nodes.get? nidx with
            | none => .error "index out of bounds"
            | some nn =>
              let nm := nn.meta
              let nm2 := { nm with activation := max 0 (nm.activation + ripple),
                                   last_tick := h.current_tick }
              .ok { h with nodes := h.nodes.set nidx (nn.setMeta nm2) }
          else .ok h
        | none => .ok h
      else .ok h
    | _ => .ok h

/-- Model of `LoomGraph::boost_node`.  The source's single level of recursion
(`propagate` is always `false` in the recursive call) is unrolled into
`selfBoost` plus a fold over a snapshot of the edges. -/
noncomputable def LoomGraph.boost_node (g : LoomGraph) (i : Nat) (amount : ℝ)
    (propagate : Bool) : Except String LoomGraph :=
  match g.selfBoost i amount with
  | .error e => .error e
  | .ok g2 =>
    if propagate then
      match g2.nodes.get? i with
      | none => .error "index out of bounds"
      | some n =>
        g2.edges.foldl (LoomGraph.rippleStep n.meta.id amount) (.ok g2)
    else .ok g2

/-- Model of `LoomGraph::stimulate`.  The `Uuid::parse_str` result is passed as an
`Option`: `none` models a malformed identifier string. -/
noncomputable def LoomGraph.stimulate (g : LoomGraph) (uuid : Option Nat) (force : ℝ) :
    Except String (Bool × LoomGraph) :=
  match uuid with
  | none => .ok (false, g)
  | some u =>
    match alookup g.node_map u with
    | some idx =>
      match g.boost_node idx force true with
      | .error e => .error e
      | .ok g2 => .ok (true, g2)
    | none => .ok (false, g)

/-- Model of `LoomGraph::connect`. -/
def LoomGraph.connect (g : LoomGraph) (src tgt : Option Nat) (w : ℝ) :
    Bool × LoomGraph :=
  match src with
  | none => (false, g)
  | some s =>
    match tgt with
    | none => (false, g)
    | some t =>
      if akeyMem g.node_map s && akeyMem g.node_map t then
        (true, { g with edges := g.edges ++ [.associated s t w] })
      else (false, g)

/-- The prune predicate of `prune_low_stability`:
`stability < threshold && activation < 0.1` on the stored values. -/
noncomputable def pruneTest (t : ℝ) (n : Node) : Bool :=
  decide (n.meta.stability < t) && decide (n.meta.activation < 1 / 10)

/-- Model of `LoomGraph::rebuild_node_map`. -/
def LoomGraph.rebuild_node_map (g : LoomGraph) : LoomGraph :=
  { g with node_map := g.nodes.enum.foldl (fun m p => ainsert m p.2.meta.id p.1) [] }

/-- Model of `LoomGraph::prune_low_stability`.  Note: the source removes the nodes
and all edges touching them and rebuilds `node_map`, but never updates the
text `index`. -/
noncomputable def LoomGraph.prune_low_stability (g : LoomGraph) (t : ℝ) :
    Nat × LoomGraph :=
  let before := g.nodes.length
  let to_remove := (g.nodes.filter (pruneTest t)).map (fun n => n.meta.id)
  if to_remove.isEmpty then (0, g)
  else
    let g1 := to_remove.foldl
      (fun h id =>
        { h with nodes := h.nodes.filter (fun n => !(n.meta.id = id : Bool)),
                 edges := h.edges.filter (fun e => !(e.touchesB id)) })
      g
    let g2 := g1.rebuild_node_map
    (before - g2.nodes.length, g2)

/-- The activation-collection loop of `search_native` (phase 2): thread
the graph through `get_activation` over the deduplicated candidates. -/
noncomputable def collectAct (g : LoomGraph) :
    List Nat → Except String (List (Nat × ℝ) × LoomGraph)
  | [] => .ok ([], g)
  | i :: is_ =>
    match g.get_activation i with
    | .error e => .error e
    | .ok (a, g1) =>
      match collectAct g1 is_ with
      | .error e => .error e
      | .ok (rs, g2) => .ok ((i, a) :: rs, g2)

/-- Model of `LoomGraph::search_native`: lowercase and trim the query, collect the
posting lists of every index key containing it, sort and deduplicate the
candidate indices, compute each candidate's (lazily decayed) activation,
and sort descending by activation with NaN-tolerant comparison. -/
noncomputable def LoomGraph.search_native (g : LoomGraph) (query : String) :
    Except String (List (Nat × ℝ) × LoomGraph) :=
  let clean := trimStr (lowerStr query)
  if clean.data.isEmpty then .ok ([], g)
  else
    let cands := g.index.foldl
      (fun acc kv => if containsSubB kv.1.data clean.data then acc ++ kv.2 else acc) []
    let cands2 := dedupAdj (insSort compare cands)
    match collectAct g cands2 with
    | .error e => .error e
    | .ok (rs, g2) => .ok (insSort (fun a b => rcmp b.2 a.2) rs, g2)

/-- The filtering scan of `get_context_prompt`: walk the index range,
apply lazy decay to every node (`get_activation` over `0..len` is always
in range, so the error branch is unreachable and skips harmlessly), and
keep the indices whose activation strictly exceeds `min_activation`. -/
noncomputable def ctxScan (m : ℝ) (g : LoomGraph) :
    List Nat → List Nat × LoomGraph
  | [] => ([], g)
  | i :: is_ =>
    match g.get_activation i with
    | .error _ => ctxScan m g is_
    | .ok (a, g1) =>
      let p := ctxScan m g1 is_
      (if m < a then i :: p.1 else p.1, p.2)

/-- Model of `LoomGraph::get_context_prompt`, up to the pure XML rendering: the
state effect (lazy-decay write-backs) and the sorted list of active node
indices.  The rendering of lines 549-577 of the source reads this data
without further mutation. -/
noncomputable def LoomGraph.get_context_prompt (g : LoomGraph) (min_activation : ℝ) :
    List Nat × LoomGraph :=
  let scan := ctxScan min_activation g (List.range g.nodes.length)
  let act := fun i => ((scan.2.nodes.getD i default).meta.activation)
  (insSort (fun a b => rcmp (act b) (act a)) scan.1, scan.2)

/-! ## Backup codec (`export_backup` / `import_backup`)

The source serializes the whole `LoomGraph` with `serde_json` (a derived,
field-by-field codec) and parses it back, falling back to a fresh graph
with decay `0.95` on parse failure.  The JSON text layer is modelled as a
structured JSON value: numbers carry the exact scalar (`num` for floats,
`intg` for the integer tokens produced by `u64`/`usize` fields), uuid keys
and timestamp strings are abstracted to their numeric values. -/

inductive JsonVal where
  | null
  | num (x : ℝ)
  | intg (n : Nat)
  | str (s : String)
  | arr (l : List JsonVal)
  | obj (l : List (String × JsonVal))

/-- Decode a list element-wise, failing if any element fails
(models deserializing a JSON array of homogeneous values). -/
def decList {α β : Type} (d : α → Option β) : List α → Option (List β)
  | [] => some []
  | j :: js =>
    match d j, decList d js with
    | some b, some r => some (b :: r)
    | _, _ => none

/-- Serialize `NodeMetadata`. -/
def metaToJson (m : NodeMetadata) : JsonVal :=
  .obj [("id", .intg m.id), ("activation", .num m.activation),
        ("stability", .num m.stability), ("last_tick", .intg m.last_tick)]

/-- Deserialize `NodeMetadata`. -/
def metaFromJson : JsonVal → Option NodeMetadata
  | .obj [("id", .intg id), ("activation", .num a),
          ("stability", .num s), ("last_tick", .intg t)] =>
    some { id := id, activation := a, stability := s, last_tick := t }
  | _ => none

/-- Serialize a `Node` (serde's externally tagged enum encoding). -/
def nodeToJson : Node → JsonVal
  | .episode m s ts =>
    .obj [("Episode", .arr [metaToJson m,
      .obj [("summary", .str s), ("timestamp", .intg ts)]])]
  | .concept m n d =>
    .obj [("Concept", .arr [metaToJson m,
      .obj [("name", .str n), ("definition", .str d)]])]
  | .state m v a =>
    .obj [("State", .arr [metaToJson m,
      .obj [("valence", .num v), ("arousal", .num a)]])]

/-- Deserialize a `Node`. -/
def nodeFromJson : JsonVal → Option Node
  | .obj [("Episode", .arr [mj, .obj [("summary", .str s), ("timestamp", .intg ts)]])] =>
    (metaFromJson mj).map (fun m => .episode m s ts)
  | .obj [("Concept", .arr [mj, .obj [("name", .str n), ("definition", .str d)]])] =>
    (metaFromJson mj).map (fun m => .concept m n d)
  | .obj [("State", .arr [mj, .obj [("valence", .num v), ("arousal", .num a)]])] =>
    (metaFromJson mj).map (fun m => .state m v a)
  | _ => none

/-- Serialize an `Edge` (externally tagged tuple variants). -/
def edgeToJson : Edge → JsonVal
  | .preceded s t => .obj [("Preceded", .arr [.intg s, .intg t])]
  | .mentioned s t => .obj [("Mentioned", .arr [.intg s, .intg t])]
  | .evoked s t => .obj [("Evoked", .arr [.intg s, .intg t])]
  | .associated s t w => .obj [("Associated", .arr [.intg s, .intg t, .num w])]
  | .inhibited s t w => .obj [("Inhibited", .arr [.intg s, .intg t, .num w])]

/-- Deserialize an `Edge`. -/
def edgeFromJson : JsonVal → Option Edge
  | .obj [("Preceded", .arr [.intg s, .intg t])] => some (.preceded s t)
  | .obj [("Mentioned", .arr [.intg s, .intg t])] => some (.mentioned s t)
  | .obj [("Evoked", .arr [.intg s, .intg t])] => some (.evoked s t)
  | .obj [("Associated", .arr [.intg s, .intg t, .num w])] => some (.associated s t w)
  | .obj [("Inhibited", .arr [.intg s, .intg t, .num w])] => some (.inhibited s t w)
  | _ => none

/-- Serialize one text-index entry (a key of the JSON object `index`). -/
def ixEntryToJson (kv : String × List Nat) : String × JsonVal :=
  (kv.1, .arr (kv.2.map .intg))

/-- Deserialize a JSON integer token. -/
def jIntFromJson : JsonVal → Option Nat
  | .intg n => some n
  | _ => none

/-- Deserialize one text-index entry. -/
def ixEntryFromJson (kv : String × JsonVal) : Option (String × List Nat) :=
  match kv.2 with
  | .arr js => (decList jIntFromJson js).map (fun l => (kv.1, l))
  | _ => none

/-- Serialize one `node_map` entry (uuid-keyed map entry; the uuid's
string form is abstracted to its numeric value). -/
def nmEntryToJson (kv : Nat × Nat) : JsonVal := .arr [.intg kv.1, .intg kv.2]

/-- Deserialize one `node_map` entry. -/
def nmEntryFromJson : JsonVal → Option (Nat × Nat)
  | .arr [.intg k, .intg v] => some (k, v)
  | _ => none

/-- Serialize `last_saved` (serde's `Option`: `null` or the value). -/
def lastSavedToJson : Option Nat → JsonVal
  | none => .null
  | some t => .intg t

/-- Deserialize `last_saved`. -/
def lastSavedFromJson : JsonVal → Option (Option Nat)
  | .null => some none
  | .intg t => some (some t)
  | _ => none

/-- Serialize a whole `LoomGraph` (the derived `Serialize`). -/
def graphToJson (g : LoomGraph) : JsonVal :=
  .obj [("nodes", .arr (g.nodes.map nodeToJson)),
        ("edges", .arr (g.edges.map edgeToJson)),
        ("current_tick", .intg g.current_tick),
        ("decay_rate", .num g.decay_rate),
        ("index", .obj (g.index.map ixEntryToJson)),
        ("node_map", .arr (g.node_map.map nmEntryToJson)),
        ("last_saved", lastSavedToJson g.last_saved)]

/-- Deserialize a whole `LoomGraph` (the derived `Deserialize`);
any shape mismatch fails. -/
def graphFromJson : JsonVal → Option LoomGraph
  | .obj [("nodes", .arr ns), ("edges", .arr es), ("current_tick", .intg t),
          ("decay_rate", .num d), ("index", .obj ixs), ("node_map", .arr nms),
          ("last_saved", ls)] =>
    match decList nodeFromJson ns, decList edgeFromJson es,
          decList ixEntryFromJson ixs, decList nmEntryFromJson nms,
          lastSavedFromJson ls with
    | some nodes, some edges, some ix, some nm, some lsv =>
      some { nodes := nodes, edges := edges, current_tick := t, decay_rate := d,
             index := ix, node_map := nm, last_saved := lsv }
    | _, _, _, _, _ => none
  | _ => none

/-- Model of `LoomGraph::export_backup` (serialization of these types cannot fail,
so the `unwrap_or("{}")` branch is dead). -/
def LoomGraph.export_backup (g : LoomGraph) : JsonVal := graphToJson g

/-- Model of `LoomGraph::import_backup`: parse, falling back to
`LoomGraph::new(0.95)` on failure. -/
noncomputable def LoomGraph.import_backup (j : JsonVal) : LoomGraph :=
  (graphFromJson j).getD (LoomGraph.new (95 / 100))

/-! ## Dream protocol (modelled from the spec) -/

/-- Modelled from the spec: the per-node step 2 of `dream()` (§4.5).
`dream` appears in the spec's external interface (§6) but is absent from
the source files, so it is modelled from the spec's words: nodes whose
stored activation exceeds `0.7` gain stability `0.5·(1 − stability/100)`,
then activation is recomputed as `a·0.3 + min(0.2, stability/100)`. -/
noncomputable def dreamUpd (n : Node) : Node :=
  let a := n.meta.activation
  let s :=
    if 7 / 10 < a then n.meta.stability + (1 / 2) * (1 - n.meta.stability / 100)
    else n.meta.stability
  n.setMeta { n.meta with stability := s, activation := a * (3 / 10) + min (2 / 10) (s / 100) }

/-- Modelled from the spec: the prune predicate of `dream()` step 3:
`stability < 1.2 ∧ activation < 0.1`. -/
noncomputable def dreamPruneB (n : Node) : Bool :=
  decide (n.meta.stability < 12 / 10) && decide (n.meta.activation < 1 / 10)

/-- Rebuild the text index from a node list (the spec, §9, allows the
index to be rebuilt as a material view rather than edited in place). -/
def rebuildIndex (nodes : List Node) : List (String × List Nat) :=
  nodes.enum.foldl
    (fun ix p =>
      let text := lowerStr p.2.extract_text
      if text.data.isEmpty then ix
      else
        (splitWs text.data).foldl
          (fun ix tok =>
            let clean : String := ⟨trimTok tok⟩
            if clean.data.isEmpty then ix else indexAdd ix clean p.1)
          ix)
    []

/-- Modelled from the spec: `dream()` (§4.5), absent from the source files
though declared in the spec's interface table (§6).  Advance the clock by
480, apply the consolidation step to every node, prune weak nodes with
full cascade (node store, adjacency, text index, node map), and return
`(promoted_count, pruned_count)`. -/
noncomputable def LoomGraph.dream (g : LoomGraph) : (Nat × Nat) × LoomGraph :=
  let g1 := { g with current_tick := g.current_tick + 480 }
  let promoted := (g1.nodes.filter (fun n => decide (7 / 10 < n.meta.activation))).length
  let mapped := g1.nodes.map dreamUpd
  let victims := (mapped.filter dreamPruneB).map (fun n => n.meta.id)
  let kept := mapped.filter (fun n => !(dreamPruneB n))
  let g2 := { g1 with
    nodes := kept,
    edges := g1.edges.filter (fun e => !(victims.any (fun v => e.touchesB v))),
    index := rebuildIndex kept }
  ((promoted, (mapped.filter dreamPruneB).length), g2.rebuild_node_map)

/-! ## NaN model of the two sort comparators (for the safety claim)

`f32` values that may be NaN are modelled as `Option ℝ`, with `none` the
NaN.  This mirrors exactly the two ranking comparators and the activation
filter of `get_context_prompt`; everywhere else the engine's arithmetic is
NaN-free on NaN-free inputs, and the real-number model above applies. -/

/-- A possibly-NaN `f32`. -/
def F32 : Type := Option ℝ

/-- Model of `f32::partial_cmp`: `None` when either operand is NaN. -/
noncomputable def pcmpF : F32 → F32 → Option Ordering
  | some a, some b => some (rcmp a b)
  | _, _ => none

/-- The `search_native` result comparator (line 460 of the source):
`b.partial_cmp(&a).unwrap_or(Equal)`, descending. -/
noncomputable def searchCmpF (a b : F32) : Ordering :=
  (pcmpF b a).getD .eq

/-- The `get_context_prompt` sort comparator (line 546 of the source):
`val_b.partial_cmp(&val_a).unwrap()`, descending; the `unwrap` panics on a
NaN comparison, modelled as `Except.error`. -/
noncomputable def ctxCmpF (a b : F32) : Except Unit Ordering :=
  match pcmpF b a with
  | some o => .ok o
  | none => .error ()

/-- The activation filter of `get_context_prompt` (line 540):
`activation > min_activation` on `f32`, which is `false` whenever either
side is NaN. -/
noncomputable def fGt (a m : F32) : Bool :=
  match a, m with
  | some x, some y => decide (y < x)
  | _, _ => false

/-- Insertion step of a sort whose comparator can fail (panic). -/
noncomputable def insE {α : Type} (cmp : α → α → Except Unit Ordering) (x : α) :
    List α → Except Unit (List α)
  | [] => .ok [x]
  | y :: ys =>
    match cmp x y with
    | .error e => .error e
    | .ok .gt =>
      match insE cmp x ys with
      | .error e => .error e
      | .ok r => .ok (y :: r)
    | .ok _ => .ok (x :: y :: ys)

/-- Sort with a failing comparator: models `sort_by` with a panicking
closure — the panic (error) propagates, and the comparator is invoked only
on elements of the list. -/
noncomputable def sortE {α : Type} (cmp : α → α → Except Unit Ordering) :
    List α → Except Unit (List α)
  | [] => .ok []
  | x :: xs =>
    match sortE cmp xs with
    | .error e => .error e
    | .ok r => insE cmp x r

/-! ## `get_node_info` -/

/-- Model of `LoomGraph::get_node_info`: the argument is the node's **internal
index** (`usize`), not an identifier.  In range: the node serialized to
JSON; out of range: the empty JSON object `{}`.  A total function — it
never throws. -/
def LoomGraph.get_node_info (g : LoomGraph) (index : Nat) : JsonVal :=
  match g.nodes.get? index with
  | some n => nodeToJson n
  | none => .obj []

/-! ## Projected activation and the lazy-write-back relation -/

/-- The projected activation of a node at tick `T`: the value lazy decay
would return, computed without mutating the graph. -/
noncomputable def projAct (T : Nat) (d : ℝ) (n : Node) : ℝ :=
  (touchNode T d n).meta.activation

/-- The relation `LazyView g g'` says `g'` differs from `g` at most by lazy-decay
write-backs: every non-node component is unchanged, node count,
identifiers, stabilities and projected activations are unchanged, and
every node is either untouched or replaced by its lazily decayed form. -/
noncomputable def LazyView (g g' : LoomGraph) : Prop :=
  g'.edges = g.edges ∧ g'.current_tick = g.current_tick ∧
  g'.decay_rate = g.decay_rate ∧ g'.index = g.index ∧
  g'.node_map = g.node_map ∧ g'.last_saved = g.last_saved ∧
  g'.nodes.length = g.nodes.length ∧
  (∀ i, (g'.nodes.get? i).map (fun n => n.meta.id) =
        (g.nodes.get? i).map (fun n => n.meta.id)) ∧
  (∀ i, (g'.nodes.get? i).map (fun n => n.meta.stability) =
        (g.nodes.get? i).map (fun n => n.meta.stability)) ∧
  (∀ i, (g'.nodes.get? i).map (projAct g.current_tick g.decay_rate) =
        (g.nodes.get? i).map (projAct g.current_tick g.decay_rate)) ∧
  (∀ i, g'.nodes.get? i = g.nodes.get? i ∨
        g'.nodes.get? i = (g.nodes.get? i).map (touchNode g.current_tick g.decay_rate))

/-- Extract the graph from an `ok` result, with a fallback (used only to
name concrete intermediate states in the scenarios below). -/
def okGraph (e : Except String (ℝ × LoomGraph)) (dflt : LoomGraph) : LoomGraph :=
  match e with
  | .ok p => p.2
  | .error _ => dflt

/-! ## Concrete scenario states -/

/-- Prune scenario: decay `0.5`, two concepts, one edge, four ticks, then
one lazy-decay read of node `0` (driving its stored activation to
`1/16 < 0.1`). -/
noncomputable def gC1 : LoomGraph :=
  ((((LoomGraph.new (1/2)).add_concept 1 "a" "b").add_concept 2 "c"
      "d").connect (some 1) (some 2) 1).2.tick.tick.tick.tick

/-- The stored activation of node `0` of `gC1` after the lazy-decay read. -/
noncomputable def actC1 : ℝ := 1 * ((1/2 : ℝ) ^ (((i32ofNat (4 - 0) : ℤ) : ℝ) / 1))

/-- The state of `gC1` after the lazy-decay read of node `0`. -/
noncomputable def gC1b : LoomGraph := okGraph (gC1.get_activation 0) gC1

/-- Literal form of `gC1b`. -/
noncomputable def gC1bL : LoomGraph :=
  { nodes := [.concept ⟨1, actC1, 1, 4⟩ "a" "b", .concept ⟨2, 1, 1, 0⟩ "c" "d"],
    edges := [.associated 1 2 1], current_tick := 4, decay_rate := 1/2,
    index := [("a", [0]), ("b", [0]), ("c", [1]), ("d", [1])],
    node_map := [(1, 0), (2, 1)], last_saved := none }

/-- Read-path scenario: decay `0.5`, one concept, one tick. -/
noncomputable def gC3 : LoomGraph := ((LoomGraph.new (1/2)).add_concept 1 "a" "b").tick

/-- The activation value written back by searching `gC3`. -/
noncomputable def actC3 : ℝ := 1 * ((1/2 : ℝ) ^ (((i32ofNat (1 - 0) : ℤ) : ℝ) / 1))

/-- The graph state after `search_native gC3 "a"`. -/
noncomputable def gC3x : LoomGraph :=
  { nodes := [.concept ⟨1, actC3, 1, 1⟩ "a" "b"], edges := [],
    current_tick := 1, decay_rate := 1/2, index := [("a", [0]), ("b", [0])],
    node_map := [(1, 0)], last_saved := none }

/-- Spread scenario (spec §8 scenario 2): decay `0.95`, concepts X, Y, Z
with edges X→Y and Y→Z of weight `1`, one tick. -/
noncomputable def gC4 : LoomGraph :=
  (((((LoomGraph.new (19/20)).add_concept 1 "x" "xx").add_concept 2 "y"
        "yy").add_concept 3 "z" "zz").connect (some 1) (some 2) 1).2.connect
    (some 2) (some 3) 1 |>.2.tick

/-- Literal form of `gC4`. -/
noncomputable def gC4L : LoomGraph :=
  { nodes := [.concept ⟨1, 1, 1, 0⟩ "x" "xx", .concept ⟨2, 1, 1, 0⟩ "y" "yy",
              .concept ⟨3, 1, 1, 0⟩ "z" "zz"],
    edges := [.associated 1 2 1, .associated 2 3 1],
    current_tick := 1, decay_rate := 19/20,
    index := [("x", [0]), ("xx", [0]), ("y", [1]), ("yy", [1]), ("z", [2]), ("zz", [2])],
    node_map := [(1, 0), (2, 1), (3, 2)], last_saved := none }

/-- The state after `stimulate(X, 1.0)` on `gC4`: X saturates to `1`,
Y receives the single-hop ripple `0.5` (activation `39/40`), and Z is
untouched. -/
noncomputable def gC4F : LoomGraph :=
  { nodes := [.concept ⟨1, 1, 59/10, 1⟩ "x" "xx",
              .concept ⟨2, 39/40, 69/20, 1⟩ "y" "yy",
              .concept ⟨3, 1, 1, 0⟩ "z" "zz"],
    edges := [.associated 1 2 1, .associated 2 3 1],
    current_tick := 1, decay_rate := 19/20,
    index := [("x", [0]), ("xx", [0]), ("y", [1]), ("yy", [1]), ("z", [2]), ("zz", [2])],
    node_map := [(1, 0), (2, 1), (3, 2)], last_saved := none }

/-- Clamping scenario: decay `0.5`, one concept, one tick (stored
activation decays to `1/2` on touch), then `stimulate` with force `2`. -/
noncomputable def gC5 : LoomGraph := ((LoomGraph.new (1/2)).add_concept 1 "a" "b").tick

/-- Node `0`'s activation after `stimulate(·, 2.0)` on `gC5`. -/
noncomputable def actC5 : ℝ :=
  1 * ((1/2 : ℝ) ^ (((i32ofNat (1 - 0) : ℤ) : ℝ) / 1)) +
    (1 - 1 * ((1/2 : ℝ) ^ (((i32ofNat (1 - 0) : ℤ) : ℝ) / 1))) * 2

/-- LTP scenario: one fresh concept at tick `0` (no decay on touch). -/
noncomputable def gC6 : LoomGraph := (LoomGraph.new (1/2)).add_concept 1 "a" "b"

/-- Decay scenario (spec §8 scenario 1): decay `0.9`, one concept, three
ticks. -/
noncomputable def gC7 : LoomGraph :=
  ((LoomGraph.new (9/10)).add_concept 1 "a" "b").tick.tick.tick

/-- Node `0`'s activation as returned by `get_activation` on `gC7`. -/
noncomputable def actC7 : ℝ := 1 * ((9/10 : ℝ) ^ (((i32ofNat (3 - 0) : ℤ) : ℝ) / 1))

/-- A sample stale node for the lazy-decay witness. -/
noncomputable def nW : Node := .concept ⟨9, 1, 1, 0⟩ "w" "ww"

/-- A `get_node_info` scenario: a single concept whose uuid (`7`) differs
from its internal index (`0`). -/
noncomputable def gC10 : LoomGraph := (LoomGraph.new (1/2)).add_concept 7 "a" "b"

/-! # Theorems -/

/-! ## Arithmetic and structural helper lemmas -/

/-- The `u64 → i32` cast on tick deltas is the identity below `2^31`
(every delta arising in the scenarios of this development). -/
theorem i32ofNat_small (x : Nat) (h : x < 2 ^ 31) : i32ofNat x = x := by
  unfold i32ofNat
  rw [Nat.mod_eq_of_lt (lt_trans h (by norm_num))]
  rw [if_pos h]
  simp

theorem i32ofNat_one : i32ofNat 1 = 1 := i32ofNat_small 1 (by norm_num)

theorem i32ofNat_three : i32ofNat 3 = 3 := i32ofNat_small 3 (by norm_num)

theorem i32ofNat_four : i32ofNat 4 = 4 := i32ofNat_small 4 (by norm_num)

theorem meta_setMeta (n : Node) (m : NodeMetadata) : (n.setMeta m).meta = m := by
  cases n <;> rfl

theorem touch_id (T : Nat) (d : ℝ) (n : Node) :
    (touchNode T d n).meta.id = n.meta.id := by
  unfold touchNode
  split <;> simp [meta_setMeta]

theorem touch_stability (T : Nat) (d : ℝ) (n : Node) :
    (touchNode T d n).meta.stability = n.meta.stability := by
  unfold touchNode
  split <;> simp [meta_setMeta]

/-- Lazy decay is idempotent at a fixed tick: once written back, a second
touch at the same tick is the identity. -/
theorem touch_touch (T : Nat) (d : ℝ) (n : Node) :
    touchNode T d (touchNode T d n) = touchNode T d n := by
  by_cases h : n.meta.last_tick < T
  · simp [touchNode, h, meta_setMeta]
  · simp [touchNode, h]

/-- Writing back the lazily decayed value does not change the projected
activation. -/
theorem projAct_touch (T : Nat) (d : ℝ) (n : Node) :
    projAct T d (touchNode T d n) = projAct T d n := by
  unfold projAct
  rw [touch_touch]

theorem get?_set_self {α : Type} (l : List α) (i : Nat) (a : α) :
    (l.set i a).get? i = (l.get? i).map (fun _ => a) := by
  induction l generalizing i with
  | nil => cases i <;> rfl
  | cons x t ih =>
    cases i with
    | zero => rfl
    | succ j => simpa using ih j

theorem get?_set_ne {α : Type} (l : List α) (i j : Nat) (a : α) (h : ¬ i = j) :
    (l.set i a).get? j = l.get? j := by
  induction l generalizing i j with
  | nil => cases i <;> rfl
  | cons x t ih =>
    cases i with
    | zero =>
      cases j with
      | zero => exact absurd rfl h
      | succ k => rfl
    | succ i2 =>
      cases j with
      | zero => rfl
      | succ k => simpa using ih i2 k (fun hh => h (by rw [hh]))

/-- Characterization of `get_activation` on an in-range index. -/
theorem get_activation_eq (g : LoomGraph) (i : Nat) (n : Node)
    (h : g.nodes.get? i = some n) :
    g.get_activation i =
      .ok ((touchNode g.current_tick g.decay_rate n).meta.activation,
        { g with nodes := g.nodes.set i (touchNode g.current_tick g.decay_rate n) }) := by
  unfold LoomGraph.get_activation
  rw [h]

/-! ## The lazy-write-back relation is preserved by the read paths -/

theorem LazyView_refl (g : LoomGraph) : LazyView g g :=
  ⟨rfl, rfl, rfl, rfl, rfl, rfl, rfl, fun _ => rfl, fun _ => rfl, fun _ => rfl,
   fun _ => Or.inl rfl⟩

theorem LazyView_step (g : LoomGraph) (i : Nat) (n : Node)
    (h : g.nodes.get? i = some n) :
    LazyView g { g with nodes := g.nodes.set i (touchNode g.current_tick g.decay_rate n) } := by
  refine ⟨rfl, rfl, rfl, rfl, rfl, rfl, by simp, ?_, ?_, ?_, ?_⟩
  · intro j
    by_cases hij : i = j
    · subst hij
      rw [get?_set_self, h]
      simp [touch_id]
    · rw [get?_set_ne _ _ _ _ hij]
  · intro j
    by_cases hij : i = j
    · subst hij
      rw [get?_set_self, h]
      simp [touch_stability]
    · rw [get?_set_ne _ _ _ _ hij]
  · intro j
    by_cases hij : i = j
    · subst hij
      rw [get?_set_self, h]
      simp [projAct_touch]
    · rw [get?_set_ne _ _ _ _ hij]
  · intro j
    by_cases hij : i = j
    · subst hij
      rw [get?_set_self, h]
      exact Or.inr (by simp [h])
    · exact Or.inl (get?_set_ne _ _ _ _ hij)

theorem LazyView_trans (g g1 g2 : LoomGraph) (h1 : LazyView g g1)
    (h2 : LazyView g1 g2) : LazyView g g2 := by
  obtain ⟨e1, t1, d1, x1, m1, s1, l1, i1, st1, p1, n1⟩ := h1
  obtain ⟨e2, t2, d2, x2, m2, s2, l2, i2, st2, p2, n2⟩ := h2
  rw [t1] at t2 n2 p2
  rw [d1] at d2 n2 p2
  refine ⟨e2.trans e1, t2, d2, x2.trans x1, m2.trans m1, s2.trans s1,
    l2.trans l1, fun j => (i2 j).trans (i1 j), fun j => (st2 j).trans (st1 j),
    fun j => (p2 j).trans (p1 j), ?_⟩
  intro j
  rcases n2 j with hj2 | hj2 <;> rcases n1 j with hj1 | hj1
  · exact Or.inl (hj2.trans hj1)
  · exact Or.inr (hj2.trans hj1)
  · exact Or.inr (by rw [hj2, hj1])
  · refine Or.inr ?_
    rw [hj2, hj1]
    cases hg : g.nodes.get? j <;> simp [touch_touch]

theorem collectAct_lazy (l : List Nat) :
    ∀ (g : LoomGraph) (rs : List (Nat × ℝ)) (g2 : LoomGraph),
      collectAct g l = .ok (rs, g2) → LazyView g g2 := by
  induction l with
  | nil =>
    intro g rs g2 h
    unfold collectAct at h
    cases h
    exact LazyView_refl g
  | cons i t ih =>
    intro g rs g2 h
    unfold collectAct at h
    cases hn : g.nodes.get? i with
    | none =>
      rw [show g.get_activation i = .error "index out of bounds" by
        unfold LoomGraph.get_activation; rw [hn]] at h
      cases h
    | some n =>
      rw [get_activation_eq g i n hn] at h
      dsimp only at h
      cases hc : collectAct { g with nodes := g.nodes.set i (touchNode g.current_tick g.decay_rate n) } t with
      | error e => rw [hc] at h; cases h
      | ok p =>
        obtain ⟨rs2, gg⟩ := p
        rw [hc] at h
        dsimp only at h
        cases h
        exact LazyView_trans _ _ _ (LazyView_step g i n hn) (ih _ _ _ (by rw [hc]))

theorem ctxScan_lazy (l : List Nat) :
    ∀ (m : ℝ) (g : LoomGraph), LazyView g (ctxScan m g l).2 := by
  induction l with
  | nil =>
    intro m g
    exact LazyView_refl g
  | cons i t ih =>
    intro m g
    unfold ctxScan
    cases hn : g.nodes.get? i with
    | none =>
      rw [show g.get_activation i = .error "index out of bounds" by
        unfold LoomGraph.get_activation; rw [hn]]
      exact ih m g
    | some n =>
      rw [get_activation_eq g i n hn]
      dsimp only
      exact LazyView_trans _ _ _ (LazyView_step g i n hn) (ih m _)

theorem search_native_lazy (g : LoomGraph) (q : String)
    (out : List (Nat × ℝ) × LoomGraph) (h : g.search_native q = .ok out) :
    LazyView g out.2 := by
  unfold LoomGraph.search_native at h
  by_cases hq : (trimStr (lowerStr q)).data.isEmpty
  · rw [if_pos hq] at h
    cases h
    exact LazyView_refl g
  · rw [if_neg hq] at h
    dsimp only at h
    set cands2 := dedupAdj (insSort compare (g.index.foldl
      (fun acc kv => if containsSubB kv.1.data (trimStr (lowerStr q)).data then acc ++ kv.2 else acc) [])) with hc
    cases hcol : collectAct g cands2 with
    | error e => rw [hcol] at h; cases h
    | ok p =>
      obtain ⟨rs2, gg⟩ := p
      rw [hcol] at h
      dsimp only at h
      cases h
      exact collectAct_lazy cands2 g rs2 gg (by rw [hcol])

theorem get_context_lazy (g : LoomGraph) (m : ℝ) :
    LazyView g (g.get_context_prompt m).2 := by
  unfold LoomGraph.get_context_prompt
  exact ctxScan_lazy _ m g

/-! ## Codec round-trip lemmas -/

theorem decList_map_enc {α β : Type} (enc : β → α) (dec : α → Option β)
    (h : ∀ x, dec (enc x) = some x) (l : List β) :
    decList dec (l.map enc) = some l := by
  induction l with
  | nil => rfl
  | cons a t ih => simp [List.map, decList, h, ih]

theorem metaFromJson_enc (m : NodeMetadata) : metaFromJson (metaToJson m) = some m := rfl

theorem nodeFromJson_enc (n : Node) : nodeFromJson (nodeToJson n) = some n := by
  cases n <;> rfl

theorem edgeFromJson_enc (e : Edge) : edgeFromJson (edgeToJson e) = some e := by
  cases e <;> rfl

theorem jIntFromJson_enc (n : Nat) : jIntFromJson (.intg n) = some n := rfl

theorem ixEntryFromJson_enc (kv : String × List Nat) :
    ixEntryFromJson (ixEntryToJson kv) = some kv := by
  cases kv with
  | mk k l =>
    simp [ixEntryToJson, ixEntryFromJson,
      decList_map_enc JsonVal.intg jIntFromJson jIntFromJson_enc]

theorem nmEntryFromJson_enc (kv : Nat × Nat) :
    nmEntryFromJson (nmEntryToJson kv) = some kv := rfl

theorem lastSavedFromJson_enc (o : Option Nat) :
    lastSavedFromJson (lastSavedToJson o) = some o := by
  cases o <;> rfl

theorem graphFromJson_enc (g : LoomGraph) : graphFromJson (graphToJson g) = some g := by
  cases g with
  | mk ns es t d ix nm ls =>
    simp [graphToJson, graphFromJson,
      decList_map_enc nodeToJson nodeFromJson nodeFromJson_enc,
      decList_map_enc edgeToJson edgeFromJson edgeFromJson_enc,
      decList_map_enc ixEntryToJson ixEntryFromJson ixEntryFromJson_enc,
      decList_map_enc nmEntryToJson nmEntryFromJson nmEntryFromJson_enc,
      lastSavedFromJson_enc]

/-! ## NaN-safety lemmas for the sort comparators -/

theorem ctxCmpF_ok (a b : ℝ) : ctxCmpF (some a) (some b) = .ok (rcmp b a) := rfl

theorem insE_ok (x : F32) (hx : ¬ x = none) (l : List F32) (hl : ∀ y ∈ l, ¬ y = none) :
    ∃ r, insE ctxCmpF x l = .ok r ∧ ∀ y ∈ r, ¬ y = none := by
  induction l with
  | nil => exact ⟨[x], rfl, by simpa using hx⟩
  | cons y t ih =>
    have hy : ¬ y = none := hl y (by simp)
    have ht : ∀ z ∈ t, ¬ z = none := fun z hz => hl z (by simp [hz])
    obtain ⟨a, ha⟩ : ∃ a, x = some a := Option.ne_none_iff_exists'.mp hx
    obtain ⟨b, hb⟩ : ∃ b, y = some b := Option.ne_none_iff_exists'.mp hy
    subst ha hb
    unfold insE
    rw [ctxCmpF_ok]
    cases hc : rcmp b a with
    | lt =>
      refine ⟨_, rfl, ?_⟩
      intro z hz
      simp only [List.mem_cons] at hz
      rcases hz with h | h | h
      · subst h; simp
      · subst h; simp
      · exact ht z h
    | eq =>
      refine ⟨_, rfl, ?_⟩
      intro z hz
      simp only [List.mem_cons] at hz
      rcases hz with h | h | h
      · subst h; simp
      · subst h; simp
      · exact ht z h
    | gt =>
      obtain ⟨r, hr, hrn⟩ := ih ht
      rw [hr]
      refine ⟨_, rfl, ?_⟩
      intro z hz
      simp only [List.mem_cons] at hz
      rcases hz with h | h
      · subst h; simp
      · exact hrn z h

theorem sortE_ok (l : List F32) (hl : ∀ y ∈ l, ¬ y = none) :
    ∃ r, sortE ctxCmpF l = .ok r ∧ ∀ y ∈ r, ¬ y = none := by
  induction l with
  | nil => exact ⟨[], rfl, by simp⟩
  | cons x t ih =>
    have hx : ¬ x = none := hl x (by simp)
    have ht : ∀ z ∈ t, ¬ z = none := fun z hz => hl z (by simp [hz])
    obtain ⟨r, hr, hrn⟩ := ih ht
    unfold sortE
    rw [hr]
    exact insE_ok x hx r hrn

/-- The strict activation filter of `get_context_prompt` rejects every
NaN value, so NaN never reaches the sort. -/
theorem fGt_filter_some (l : List F32) (m : F32) :
    ∀ y ∈ l.filter (fun a => fGt a m), ¬ y = none := by
  intro y hy
  rw [List.mem_filter] at hy
  intro hn
  subst hn
  cases m <;> simp [fGt] at hy

/-! ## Counting lemma for the dream protocol -/

theorem length_filter_split {α : Type} (p : α → Bool) (l : List α) :
    (l.filter p).length + (l.filter (fun a => !(p a))).length = l.length := by
  induction l with
  | nil => rfl
  | cons a t ih =>
    cases h : p a <;> simp [List.filter_cons, h] <;> omega

/-! ## Scenario evaluation lemmas -/

/-- After four ticks at decay `1/2` and stability `1`, the stored
activation is `1/16 < 0.1`. -/
theorem actC1_lt : actC1 < 1 / 10 := by
  unfold actC1
  rw [i32ofNat_four]
  rw [show ((4 : ℤ) : ℝ) / 1 = ((4 : ℕ) : ℝ) by norm_num]
  rw [Real.rpow_natCast]
  norm_num

theorem pruneTest_gC1_node0 : pruneTest 2 (.concept ⟨1, actC1, 1, 4⟩ "a" "b") = true := by
  simp only [pruneTest, Bool.and_eq_true, decide_eq_true_eq]
  refine ⟨by norm_num [Node.meta], ?_⟩
  simpa [Node.meta] using actC1_lt

theorem pruneTest_gC1_node1 : pruneTest 2 (.concept ⟨2, 1, 1, 0⟩ "c" "d") = false := by
  simp [pruneTest, Node.meta]
  norm_num

/-- One propagation step of the edge loop on a matching excitatory edge
reduces to a non-propagating boost of the neighbor. -/
theorem rippleStep_assoc_pos (node_id : Nat) (amount : ℝ) (h : LoomGraph)
    (s t nidx : Nat) (w : ℝ) (hs : s = node_id)
    (hl : alookup h.node_map t = some nidx) (hpos : 0 < amount * w * (1 / 2)) :
    LoomGraph.rippleStep node_id amount (.ok h) (.associated s t w) =
      h.selfBoost nidx (amount * w * (1 / 2)) := by
  subst hs
  unfold LoomGraph.rippleStep
  simp only [if_pos rfl, hl, if_true]
  rw [if_pos hpos]

/-- The edge loop skips edges whose source is not the boosted node. -/
theorem rippleStep_assoc_skip (node_id : Nat) (amount : ℝ) (h : LoomGraph)
    (s t : Nat) (w : ℝ) (hs : ¬ s = node_id) :
    LoomGraph.rippleStep node_id amount (.ok h) (.associated s t w) = .ok h := by
  unfold LoomGraph.rippleStep
  simp [hs]

/-- Full evaluation of `stimulate(X, 1.0)` on the three-node chain. -/
theorem stimulate_gC4_eval : gC4.stimulate (some 1) 1 = .ok (true, gC4F) := by
  have hg : gC4 = gC4L := rfl
  rw [hg]
  simp [LoomGraph.stimulate, LoomGraph.boost_node, gC4L, alookup, LoomGraph.selfBoost,
    LoomGraph.get_activation, touchNode, Node.meta, Node.setMeta, i32ofNat_one]
  rw [rippleStep_assoc_pos 1 1 _ 1 2 1 1 rfl (by norm_num [alookup]) (by norm_num)]
  simp [LoomGraph.selfBoost, LoomGraph.get_activation, touchNode, Node.meta, Node.setMeta,
    i32ofNat_one]
  rw [rippleStep_assoc_skip 1 1 _ 2 3 1 (by norm_num)]
  norm_num [gC4F, Real.rpow_natCast]

theorem actC3_val : actC3 = 1/2 := by
  unfold actC3
  rw [i32ofNat_one]
  norm_num

theorem projAct_gC4_0 :
    projAct gC4.current_tick gC4.decay_rate (gC4.nodes.getD 0 default) = 19/20 := by
  have h : gC4.nodes.getD 0 default = .concept ⟨1, 1, 1, 0⟩ "x" "xx" := rfl
  have ht : gC4.current_tick = 1 := rfl
  have hd : gC4.decay_rate = 19/20 := rfl
  rw [h, ht, hd]
  simp [projAct, touchNode, Node.meta, Node.setMeta, i32ofNat_one]

theorem projAct_gC4_1 :
    projAct gC4.current_tick gC4.decay_rate (gC4.nodes.getD 1 default) = 19/20 := by
  have h : gC4.nodes.getD 1 default = .concept ⟨2, 1, 1, 0⟩ "y" "yy" := rfl
  have ht : gC4.current_tick = 1 := rfl
  have hd : gC4.decay_rate = 19/20 := rfl
  rw [h, ht, hd]
  simp [projAct, touchNode, Node.meta, Node.setMeta, i32ofNat_one]

/-! ## Claim theorems -/

/-- C1: the claim states that after `prune_low_stability(t)` returns `n`,
the node count decreased by exactly `n`, no remaining edge references a
pruned identifier, and no text-index posting refers to a pruned node.  On
the concrete failing input (two concepts, one edge, node `0` decayed to
activation `1/16`), the code removes the node (count `1`, ids `[1,2]`
become `[2]`), removes the edge, but leaves the posting `"a" ↦ [0]` of the
pruned node in the text index even though no surviving node's text
contains the token `"a"` (the posting now denotes the unrelated surviving
node at shifted position `0`): the text-index conjunct of the claim is
violated by the code. -/
theorem c1_prune_leaves_stale_text_index :
    (gC1b.prune_low_stability 2).1 = 1 ∧
    gC1b.nodes.map (fun n => n.meta.id) = [1, 2] ∧
    (gC1b.prune_low_stability 2).2.nodes.map (fun n => n.meta.id) = [2] ∧
    (gC1b.prune_low_stability 2).2.edges = [] ∧
    slookup (gC1b.prune_low_stability 2).2.index "a" = some [0] ∧
    (gC1b.prune_low_stability 2).2.nodes.map Node.extract_text = ["c d"] := by
  have hb : gC1b = gC1bL := rfl
  have hfil : gC1bL.nodes.filter (pruneTest 2) =
      [.concept ⟨1, actC1, 1, 4⟩ "a" "b"] := by
    simp [gC1bL, List.filter_cons, pruneTest_gC1_node0, pruneTest_gC1_node1]
  rw [hb]
  unfold LoomGraph.prune_low_stability
  rw [hfil]
  refine ⟨?_, ?_, ?_, ?_, ?_, ?_⟩ <;>
    simp [gC1bL, Node.meta, Edge.touchesB, LoomGraph.rebuild_node_map, ainsert,
      List.enum, Node.extract_text, slookup]

/-- C2 (modelled from the spec, `dream` being absent from the source):
`dream()` advances `current_tick` by exactly `480`, adds stability
`0.5·(1 − stability/100)` to every node whose stored activation exceeds
`0.7` (counting it as promoted), recomputes every node's activation as
`a·0.3 + min(0.2, stability/100)`, prunes nodes with `stability < 1.2`
and `activation < 0.1`, and returns the pair
`(promoted_count, pruned_count)`. -/
theorem c2_dream_protocol (g : LoomGraph) :
    (g.dream).2.current_tick = g.current_tick + 480 ∧
    (g.dream).1.1 =
      (g.nodes.filter (fun n => decide ((7 : ℝ)/10 < n.meta.activation))).length ∧
    (∀ n : Node,
      (dreamUpd n).meta.stability =
        (if (7 : ℝ)/10 < n.meta.activation
         then n.meta.stability + (1/2) * (1 - n.meta.stability / 100)
         else n.meta.stability) ∧
      (dreamUpd n).meta.activation =
        n.meta.activation * (3/10) + min (2/10) ((dreamUpd n).meta.stability / 100)) ∧
    (g.dream).2.nodes = (g.nodes.map dreamUpd).filter (fun n => !(dreamPruneB n)) ∧
    (g.dream).1.2 = ((g.nodes.map dreamUpd).filter dreamPruneB).length ∧
    (g.dream).1.2 + (g.dream).2.nodes.length = g.nodes.length ∧
    (∀ n2 : Node, dreamPruneB n2 = true ↔
      (n2.meta.stability < 12/10 ∧ n2.meta.activation < 1/10)) ∧
    ((g.dream).2.nodes.filter dreamPruneB) = [] := by
  refine ⟨?_, ?_, ?_, ?_, ?_, ?_, ?_, ?_⟩
  · simp [LoomGraph.dream, LoomGraph.rebuild_node_map]
  · simp [LoomGraph.dream]
  · intro n
    constructor
    · simp [dreamUpd, meta_setMeta]
    · simp [dreamUpd, meta_setMeta]
  · simp [LoomGraph.dream, LoomGraph.rebuild_node_map]
  · simp [LoomGraph.dream]
  · have h := length_filter_split dreamPruneB (g.nodes.map dreamUpd)
    simp only [LoomGraph.dream, LoomGraph.rebuild_node_map]
    simpa using h
  · intro n2
    simp [dreamPruneB]
  · simp only [LoomGraph.dream, LoomGraph.rebuild_node_map]
    rw [List.filter_filter]
    simp

/-- C3 counterexample: `search` is not side-effect-free.  On a fresh
one-concept graph at decay `1/2` after one tick, `search_native "a"`
writes the lazily decayed activation back: the stored activation changes
from `1` to `1/2` and `last_tick` from `0` to `1`. -/
theorem c3_read_paths_mutate :
    gC3.search_native "a" = .ok ([(0, actC3)], gC3x) ∧
    gC3.nodes.map (fun n => (n.meta.activation, n.meta.last_tick)) = [(1, 0)] ∧
    gC3x.nodes.map (fun n => (n.meta.activation, n.meta.last_tick)) = [(actC3, 1)] ∧
    actC3 = 1/2 ∧ ¬ ((1/2 : ℝ) = 1 ∧ (1 : Nat) = 0) :=
  ⟨rfl, rfl, rfl, actC3_val, by norm_num⟩

/-- C3 amended: `search` and `get_context` mutate only by lazy-decay
write-backs.  Whenever `search_native` succeeds, and always for
`get_context_prompt`, the resulting graph preserves the edges, clock,
decay rate, text index, node map, node count, every node's identifier,
stability, and projected activation, and each node is either untouched or
replaced by its lazily decayed form (the projected value written back). -/
theorem c3_lazy_write_back :
    (∀ (g : LoomGraph) (q : String) (out : List (Nat × ℝ) × LoomGraph),
        g.search_native q = .ok out → LazyView g out.2) ∧
    (∀ (g : LoomGraph) (m : ℝ), LazyView g (g.get_context_prompt m).2) :=
  ⟨search_native_lazy, get_context_lazy⟩

/-- Witness for C3: the lazy-write-back relation holds on the concrete
search of `gC3`. -/
theorem c3_lazy_write_back_witness : LazyView gC3 gC3x :=
  c3_lazy_write_back.1 gC3 "a" ([(0, actC3)], gC3x) rfl

/-- C4 counterexample: activation does not spread across two hops.  In
the chain X→Y→Z (weights `1`, decay `0.95`, one tick),
`stimulate(X, 1.0)` leaves Z's node completely unchanged (activation
still `1`, never touched), contradicting the claimed hop budget of `3`,
the claimed ripple boost of `0.25` for Z, and the claim that all three
activations end strictly above their pre-stimulus values. -/
theorem c4_no_second_hop :
    gC4.stimulate (some 1) 1 = .ok (true, gC4F) ∧
    gC4F.nodes.getD 2 default = gC4.nodes.getD 2 default ∧
    (gC4F.nodes.getD 2 default).meta.activation = 1 ∧
    (gC4F.nodes.getD 2 default).meta.last_tick = 0 :=
  ⟨stimulate_gC4_eval, rfl, rfl, rfl⟩

/-- C4 amended: propagation reaches exactly one hop, because the
recursive call passes `propagate = false`.  `stimulate(X, 1.0)` boosts X
to `1` (projected pre-value `19/20`), gives Y the single-hop ripple
amount `1·1·0.5 = 0.5` applied asymptotically
(`19/20 + (1 − 19/20)·0.5 = 39/40`), and leaves Z untouched; X and Y end
strictly above their pre-stimulus projected activations. -/
theorem c4_single_hop_spread :
    gC4.stimulate (some 1) 1 = .ok (true, gC4F) ∧
    gC4F.nodes.map (fun n => (n.meta.activation, n.meta.stability, n.meta.last_tick)) =
      [((1 : ℝ), (59 : ℝ)/10, 1), ((39 : ℝ)/40, (69 : ℝ)/20, 1), ((1 : ℝ), (1 : ℝ), 0)] ∧
    (39 : ℝ)/40 = 19/20 + (1 - 19/20) * (1 * 1 * (1/2)) ∧
    projAct gC4.current_tick gC4.decay_rate (gC4.nodes.getD 0 default) = 19/20 ∧
    projAct gC4.current_tick gC4.decay_rate (gC4.nodes.getD 1 default) = 19/20 ∧
    ((19 : ℝ)/20 < 1) ∧ ((19 : ℝ)/20 < 39/40) ∧
    gC4F.nodes.getD 2 default = gC4.nodes.getD 2 default :=
  ⟨stimulate_gC4_eval, rfl, by norm_num, projAct_gC4_0, projAct_gC4_1,
   by norm_num, by norm_num, rfl⟩

/-- C5: the claim states activation is clamped to `[0, 1]` at every
write, for arbitrary stimulus force.  The boost write has no clamp: on a
one-concept graph whose stored activation has decayed to `1/2`,
`stimulate` with force `2` leaves the stored activation at
`1/2 + (1 − 1/2)·2 = 3/2 > 1`, violating the invariant the claim (and the
source's own documentation of the `activation` field) states. -/
theorem c5_boost_exceeds_one :
    (gC5.stimulate (some 1) 2).map (fun p => p.2.nodes.map (fun n => n.meta.activation)) =
      .ok [actC5] ∧
    actC5 = 3/2 ∧ (1 : ℝ) < 3/2 := by
  refine ⟨rfl, ?_, by norm_num⟩
  unfold actC5
  rw [i32ofNat_one]
  norm_num

/-- C6 counterexample: the LTP constant is `0.1`, not `0.05`.  Boosting a
fresh node (stability `1`) with amount `1` yields stability
`1 + 49·0.1 = 5.9`, whereas the claimed law with `k = 0.05` would give
`1 + 49·0.05 = 3.45 ≠ 5.9`. -/
theorem c6_ltp_gain_counterexample :
    (gC6.stimulate (some 1) 1).map (fun p => p.2.nodes.map (fun n => n.meta.stability)) =
      .ok [1 + (50 - 1) * (1 * (1/10))] ∧
    ((1 : ℝ) + (50 - 1) * (1 * (1/10)) = 59/10) ∧
    ((1 : ℝ) + (50 - 1) * (1 * (1/20)) = 69/20) ∧
    ¬ ((59 : ℝ)/10 = 69/20) :=
  ⟨rfl, by norm_num, by norm_num, by norm_num⟩

/-- C6 amended: the LTP stability update applied by a boost of amount `a`
is `stability ← stability + (50 − stability)·a·k` with `k = 0.1`: for
every in-range node, after the (non-propagating) boost the stored
stability equals `s + (50 − s)·(a·(1/10))` where `s` is the node's prior
stability. -/
theorem c6_ltp_update_law (g : LoomGraph) (i : Nat) (n : Node) (a : ℝ)
    (h : g.nodes.get? i = some n) :
    (g.selfBoost i a).map (fun h2 => (h2.nodes.get? i).map (fun n2 => n2.meta.stability)) =
      .ok (some (n.meta.stability + (50 - n.meta.stability) * (a * (1/10)))) := by
  unfold LoomGraph.selfBoost
  rw [get_activation_eq g i n h]
  have h2 : g.nodes[i]? = some n := by rw [← List.get?_eq_getElem?]; exact h
  simp [List.getElem?_set_self', h2, meta_setMeta, touch_stability, Except.map]

/-- Witness for C6: the update law evaluated on the fresh concept of
`gC6` with amount `1`. -/
theorem c6_ltp_update_law_witness :
    (gC6.selfBoost 0 1).map (fun h2 => (h2.nodes.get? 0).map (fun n2 => n2.meta.stability)) =
      .ok (some ((1 : ℝ) + (50 - 1) * (1 * (1/10)))) := by
  have h := c6_ltp_update_law gC6 0 (.concept ⟨1, 1, 1, 0⟩ "a" "b") 1 rfl
  simpa [Node.meta] using h

/-- C7: lazy decay multiplies activation by `d^(Δ/stability)` with
`Δ = current_tick − last_tick`, applies only when `Δ > 0` (a node touched
at the current tick is unchanged), writes `last_tick ← current_tick`, and
on the concrete scenario (fresh graph, decay `0.9`, one concept, three
ticks) `get_activation` returns `1·0.9^(3/1) = 0.729` exactly and stamps
`last_tick = 3`.  The general formula is stated for `Δ < 2^31`, matching
the source's `u64 → i32` cast of the delta. -/
theorem c7_lazy_decay :
    (∀ (T : Nat) (d : ℝ) (n : Node), ¬ n.meta.last_tick < T → touchNode T d n = n) ∧
    (∀ (T : Nat) (d : ℝ) (n : Node), n.meta.last_tick < T →
      T - n.meta.last_tick < 2 ^ 31 →
      touchNode T d n = n.setMeta { n.meta with
        activation := n.meta.activation *
          d ^ (((T - n.meta.last_tick : Nat) : ℝ) / n.meta.stability),
        last_tick := T }) ∧
    (∀ (g : LoomGraph) (i : Nat) (n : Node), g.nodes.get? i = some n →
      g.get_activation i =
        .ok ((touchNode g.current_tick g.decay_rate n).meta.activation,
          { g with nodes := g.nodes.set i (touchNode g.current_tick g.decay_rate n) })) ∧
    ((gC7.get_activation 0).map (fun p => p.1) = .ok actC7) ∧
    actC7 = 729/1000 ∧
    ((gC7.get_activation 0).map (fun p => p.2.nodes.map (fun n => n.meta.last_tick)) = .ok [3]) := by
  refine ⟨?_, ?_, get_activation_eq, rfl, ?_, rfl⟩
  · intro T d n h
    unfold touchNode
    rw [if_neg h]
  · intro T d n h h2
    unfold touchNode
    rw [if_pos h, i32ofNat_small _ h2]
    simp
  · unfold actC7
    rw [i32ofNat_three]
    rw [show ((3 : ℤ) : ℝ) / 1 = ((3 : ℕ) : ℝ) by norm_num]
    rw [Real.rpow_natCast]
    norm_num

/-- Witness for C7: the decay formula applied to a concrete stale node. -/
theorem c7_lazy_decay_witness :
    touchNode 5 (1/2) nW = nW.setMeta { nW.meta with
      activation := nW.meta.activation *
        ((1/2 : ℝ) ^ (((5 - nW.meta.last_tick : Nat) : ℝ) / nW.meta.stability)),
      last_tick := 5 } :=
  c7_lazy_decay.2.1 5 (1/2) nW (by norm_num [nW, Node.meta]) (by norm_num [nW, Node.meta])

/-- C8: the backup codec is round-trip stable:
`import_backup (export_backup g) = g` for every graph — same node set,
same edges, same scalar fields (exact in the real-number model of `f32`),
same tick counter, and the same index, node map and wall-clock anchor. -/
theorem c8_backup_round_trip (g : LoomGraph) :
    LoomGraph.import_backup (g.export_backup) = g := by
  unfold LoomGraph.import_backup LoomGraph.export_backup
  rw [graphFromJson_enc]
  rfl

/-- C9 counterexample: the `get_context` sort comparator does not treat
NaN comparisons as equal — it unwraps, i.e. panics (`error`), when either
operand is NaN, contradicting the claim's "treated as equal" clause for
that sort (the `search` comparator does return `Equal`). -/
theorem c9_ctx_comparator_panics_on_nan :
    ctxCmpF none (some 1) = .error () ∧
    ¬ ctxCmpF none (some 1) = .ok .eq ∧
    searchCmpF none (some 1) = .eq :=
  ⟨rfl, fun h => Except.noConfusion h, rfl⟩

/-- C9 amended: the `search` sort comparator returns `Equal` on every NaN
comparison (never panics), and although the `get_context` comparator
would panic on a NaN comparison, the strict `> min_activation` filter
rejects every NaN activation, so the `get_context` sort always completes
without panicking. -/
theorem c9_sort_nan_safety :
    (∀ x : F32, searchCmpF none x = .eq) ∧
    (∀ x : F32, searchCmpF x none = .eq) ∧
    (∀ (l : List F32) (m : F32), ∃ r, sortE ctxCmpF (l.filter (fun a => fGt a m)) = .ok r) := by
  refine ⟨?_, ?_, ?_⟩
  · intro x
    cases x <;> rfl
  · intro x
    cases x <;> rfl
  · intro l m
    obtain ⟨r, hr, _⟩ := sortE_ok _ (fGt_filter_some l m)
    exact ⟨r, hr⟩

/-- C10 counterexample: `get_node_info` takes the node's internal index,
not an identifier.  On a graph whose single node has identifier `7`
(stored at index `0`), `get_node_info 7` returns the empty document even
though identifier `7` is stored, and `get_node_info 0` returns the node
even though no stored node has identifier `0` — both directions of the
claim's identifier-based contract fail. -/
theorem c10_takes_index_not_identifier :
    gC10.nodes.map (fun n => n.meta.id) = [7] ∧
    gC10.get_node_info 7 = .obj [] ∧
    gC10.get_node_info 0 = nodeToJson (.concept ⟨7, 1, 1, 0⟩ "a" "b") ∧
    ¬ gC10.get_node_info 0 = .obj [] := by
  refine ⟨rfl, rfl, rfl, ?_⟩
  intro h
  rw [show gC10.get_node_info 0 = nodeToJson (.concept ⟨7, 1, 1, 0⟩ "a" "b") from rfl] at h
  simp [nodeToJson] at h

/-- C10 amended: `get_node_info` takes the node's internal index; for
every in-range index it returns that node serialized, for every
out-of-range index it returns the empty document, and it never throws
(it is a total function). -/
theorem c10_get_node_info_by_index (g : LoomGraph) (i : Nat) :
    (∀ n : Node, g.nodes.get? i = some n → g.get_node_info i = nodeToJson n) ∧
    (g.nodes.get? i = none → g.get_node_info i = .obj []) := by
  constructor
  · intro n h
    unfold LoomGraph.get_node_info
    rw [h]
  · intro h
    unfold LoomGraph.get_node_info
    rw [h]

/-- Witness for C10: both branches applied to the concrete graph. -/
theorem c10_get_node_info_by_index_witness :
    gC10.get_node_info 0 = nodeToJson (.concept ⟨7, 1, 1, 0⟩ "a" "b") ∧
    gC10.get_node_info 9 = .obj [] :=
  ⟨(c10_get_node_info_by_index gC10 0).1 _ rfl,
   (c10_get_node_info_by_index gC10 9).2 rfl⟩

end Loom

